import Mathlib

/-!
Verification of the VibeDrinks order-management server.

The definitions below are a shallow embedding of the server routes
(status transitions, order creation, stock ledger side effects, courier
assignment, delivery-fee adjustment, the SSE broadcaster) and of the
shared schema helpers.  Decimal columns are modelled as rationals,
timestamps as natural numbers, and the storage layer as explicit record
lists threaded through each handler.
-/

/-- Generic substring machinery: `listStartsWith l sub` holds when `sub`
is an initial segment of `l`. -/
def listStartsWith : List Char → List Char → Bool
  | _, [] => true
  | [], _ :: _ => false
  | a :: as, b :: bs => a == b && listStartsWith as bs

/-- Substring containment on character lists, mirroring JavaScript
`String.prototype.includes`. -/
def listHasSub : List Char → List Char → Bool
  | [], sub => sub.isEmpty
  | a :: as, sub => listStartsWith (a :: as) sub || listHasSub as sub

/-- JavaScript `s.includes(sub)`. -/
def strIncludes (s sub : String) : Bool :=
  listHasSub s.data sub.data

/-- JavaScript toLowerCase, character-wise (adequate for the ASCII
category names involved), kept kernel-reducible by mapping over the
character list. -/
def lowerStr (s : String) : String :=
  ⟨s.data.map Char.toLower⟩

/-- JavaScript toUpperCase, character-wise. -/
def upperStr (s : String) : String :=
  ⟨s.data.map Char.toUpper⟩

/-- JavaScript trim: strip whitespace from both ends. -/
def trimStr (s : String) : String :=
  ⟨((s.data.dropWhile Char.isWhitespace).reverse.dropWhile
      Char.isWhitespace).reverse⟩

/-- JavaScript slice(0, n) on an ASCII identifier. -/
def takeStr (s : String) (n : Nat) : String :=
  ⟨s.data.take n⟩

/-- JavaScript truthiness of an optional string (`undefined`, `null` and
`""` are falsy). -/
def truthyStr : Option String → Bool
  | none => false
  | some s => !(s == "")

/-- Category row (schema `categories`): only the fields the order flows
consult. -/
structure Category where
  id : String
  name : String
deriving Repr, DecidableEq

/-- Product row (schema `products`): the fields the order flows consult. -/
structure Product where
  id : String
  categoryId : String
  name : String
  stock : Int
  isPrepared : Bool
  isActive : Bool
deriving Repr, DecidableEq

/-- Stock-ledger row (schema `stock_logs`). -/
structure StockLog where
  productId : String
  previousStock : Int
  newStock : Int
  change : Int
  reason : String
deriving Repr, DecidableEq

/-- Order-item row (schema `order_items`). -/
structure OrderItem where
  orderId : String
  productId : String
  productName : String
  quantity : Int
  unitPrice : Rat
  totalPrice : Rat
deriving Repr, DecidableEq

/-- Preparation-ingredient row (schema `preparation_ingredients`). -/
structure PreparationIngredient where
  orderItemId : String
  ingredientProductId : String
  quantity : Int
deriving Repr, DecidableEq

/-- Order row (schema `orders`): decimal columns as rationals, timestamp
columns as `Option Nat`. -/
structure Order where
  id : String
  userId : String
  addressId : Option String
  orderType : String
  status : String
  subtotal : Rat
  deliveryFee : Rat
  originalDeliveryFee : Option Rat
  deliveryFeeAdjusted : Bool
  deliveryFeeAdjustedAt : Option Nat
  deliveryDistance : Option Rat
  discount : Option Rat
  total : Rat
  paymentMethod : String
  changeFor : Option Rat
  notes : Option String
  customerName : Option String
  salesperson : Option String
  motoboyId : Option String
  createdAt : Option Nat
  acceptedAt : Option Nat
  preparingAt : Option Nat
  readyAt : Option Nat
  dispatchedAt : Option Nat
  arrivedAt : Option Nat
  deliveredAt : Option Nat
deriving Repr, DecidableEq

/-- The storage layer: one record list per table touched by the order
flows. -/
structure DB where
  categories : List Category
  products : List Product
  orders : List Order
  orderItems : List OrderItem
  stockLogs : List StockLog
  prepIngredients : List PreparationIngredient
deriving Repr, DecidableEq

/-- Schema constant `PREPARED_CATEGORIES` (shared schema module). -/
def PREPARED_CATEGORIES : List String :=
  ["CAIPIRINHAS", "DOSES", "BATIDAS", "COPAO", "DRINKS ESPECIAIS",
   "CAIPI ICES", "DRINKS", "COPOS"]

/-- Schema helper `isPreparedCategoryName`: uppercase-and-trim the name,
then test equality or substring containment in either direction against
the eight fixed category names. -/
def isPreparedCategoryName (categoryName : String) : Bool :=
  let normalizedName := trimStr (upperStr categoryName)
  PREPARED_CATEGORIES.any fun cat =>
    normalizedName == cat || strIncludes normalizedName cat ||
      strIncludes cat normalizedName

/-- The five-name prepared-category list hardcoded in the order routes
(both the creation deduction and the cancellation restore). -/
def preparedCategoryNames : List String :=
  ["doses", "caipirinhas", "batidas", "drinks especiais", "copao"]

/-- Route-side prepared-category id set: ids of categories whose
lowercased name contains one of the five fixed names (one-direction
containment, as in the routes). -/
def preparedCategoryIds (categories : List Category) : List String :=
  (categories.filter fun c =>
    preparedCategoryNames.any fun name =>
      strIncludes (lowerStr c.name) (lowerStr name)).map Category.id

/-- The exemption test actually applied by the order routes to a product:
`product.isPrepared || preparedCategoryIds.has(product.categoryId)`. -/
def isPreparedProductRoute (product : Product) (categories : List Category) : Bool :=
  product.isPrepared || (preparedCategoryIds categories).contains product.categoryId

/-- Delivery transition table `VALID_STATUS_TRANSITIONS`; a status
absent from the table yields `[]` (the code falls back to `[]` on a
missing key). -/
def VALID_STATUS_TRANSITIONS : String → List String
  | "pending" => ["accepted", "cancelled"]
  | "accepted" => ["preparing", "cancelled"]
  | "preparing" => ["ready", "cancelled"]
  | "ready" => ["dispatched", "cancelled"]
  | "dispatched" => ["arrived", "delivered", "cancelled"]
  | "arrived" => ["delivered", "cancelled"]
  | "delivered" => []
  | "cancelled" => []
  | _ => []

/-- Counter/PDV transition table `COUNTER_TRANSITIONS`; missing keys
(including `dispatched` and `arrived`) yield `[]`. -/
def COUNTER_TRANSITIONS : String → List String
  | "pending" => ["accepted", "cancelled"]
  | "accepted" => ["preparing", "cancelled"]
  | "preparing" => ["ready", "cancelled"]
  | "ready" => ["delivered", "cancelled"]
  | "delivered" => []
  | "cancelled" => []
  | _ => []

/-- Result record of `isValidStatusTransition`. -/
structure TransitionCheck where
  valid : Bool
  transitions : List String
deriving Repr, DecidableEq

/-- Route helper `isValidStatusTransition`: pick the counter table only
when `orderType === 'counter'`, otherwise the delivery table; report
whether the requested status is in the allowed list together with the
allowed list itself. -/
def isValidStatusTransition (currentStatus newStatus : String)
    (orderType : Option String) : TransitionCheck :=
  let transitions :=
    if orderType == some "counter" then COUNTER_TRANSITIONS
    else VALID_STATUS_TRANSITIONS
  let allowed := transitions currentStatus
  ⟨allowed.contains newStatus, allowed⟩

example : (isValidStatusTransition "pending" "accepted" (some "delivery")).valid = true := by decide
example : (isValidStatusTransition "ready" "dispatched" (some "counter")).valid = false := by decide
example : (isValidStatusTransition "ready" "delivered" none).valid = false := by decide

/-- Storage read `getOrder`: first order with the given id. -/
def findOrder (db : DB) (orderId : String) : Option Order :=
  db.orders.find? fun o => o.id == orderId

/-- Storage read `getProduct`: first product with the given id. -/
def findProduct (db : DB) (productId : String) : Option Product :=
  db.products.find? fun p => p.id == productId

/-- Storage read `getOrderItems`: the items belonging to an order. -/
def getOrderItems (db : DB) (orderId : String) : List OrderItem :=
  db.orderItems.filter fun it => it.orderId == orderId

/-- Storage write `updateProduct(id, { stock })`: overwrite the stock of
every product with the given id. -/
def updateProductStock (db : DB) (productId : String) (newStock : Int) : DB :=
  { db with
    products := db.products.map fun p =>
      if p.id == productId then { p with stock := newStock } else p }

/-- Storage write `updateOrder`: replace the order with the given id by
its merged update. -/
def updateOrder (db : DB) (orderId : String) (updated : Order) : DB :=
  { db with
    orders := db.orders.map fun o => if o.id == orderId then updated else o }

/-- Storage write `createStockLog`: append one ledger entry. -/
def addStockLog (db : DB) (entry : StockLog) : DB :=
  { db with stockLogs := db.stockLogs ++ [entry] }

/-- Requested order item from the `POST /api/orders` body. -/
structure ItemReq where
  productId : String
  productName : String
  quantity : Int
  unitPrice : Rat
  totalPrice : Rat
deriving Repr, DecidableEq

/-- Request body of `POST /api/orders`; optional fields model keys that
may be absent from the JSON body. -/
structure OrderReqBody where
  userId : Option String
  orderType : Option String
  status : Option String
  addressId : Option String
  subtotal : Rat
  deliveryFee : Rat
  deliveryDistance : Option Rat
  discount : Option Rat
  total : Rat
  paymentMethod : String
  changeFor : Option Rat
  notes : Option String
  customerName : Option String
  salesperson : Option String
  items : Option (List ItemReq)
deriving Repr, DecidableEq

/-- Storage write `createOrder(req.body)`: build the order row, applying
the schema defaults `orderType = "delivery"` and `status = "pending"`
when the body omits them. -/
def createOrder (body : OrderReqBody) (newId : String) (now : Nat) : Order :=
  { id := newId
    userId := body.userId.getD ""
    addressId := body.addressId
    orderType := body.orderType.getD "delivery"
    status := body.status.getD "pending"
    subtotal := body.subtotal
    deliveryFee := body.deliveryFee
    originalDeliveryFee := none
    deliveryFeeAdjusted := false
    deliveryFeeAdjustedAt := none
    deliveryDistance := body.deliveryDistance
    discount := body.discount
    total := body.total
    paymentMethod := body.paymentMethod
    changeFor := body.changeFor
    notes := body.notes
    customerName := body.customerName
    salesperson := body.salesperson
    motoboyId := none
    createdAt := some now
    acceptedAt := none
    preparingAt := none
    readyAt := none
    dispatchedAt := none
    arrivedAt := none
    deliveredAt := none }

/-- Loop body of the `POST /api/orders` item loop: create the order-item
row, then, when the product exists and is not prepared/exempt, clamp the
stock at zero and append a ledger entry whose `change` is the requested
`-quantity`.  The prepared-category id set is recomputed from the
categories table on every iteration, as in the route. -/
def processOrderItem (db : DB) (orderId : String) (item : ItemReq) : DB :=
  let db := { db with
    orderItems := db.orderItems ++
      [⟨orderId, item.productId, item.productName, item.quantity,
        item.unitPrice, item.totalPrice⟩] }
  match findProduct db item.productId with
  | none => db
  | some product =>
    if isPreparedProductRoute product db.categories then db
    else
      let previousStock := product.stock
      let newStock := max 0 (previousStock - item.quantity)
      let db := updateProductStock db item.productId newStock
      addStockLog db
        ⟨item.productId, previousStock, newStock, -item.quantity,
         "Pedido #" ++ takeStr orderId 8⟩

/-- Response of `POST /api/orders`. -/
inductive CreateResp where
  | unauthorized
  | created (order : Order)
deriving Repr, DecidableEq

/-- Result of `POST /api/orders`: response, final storage state, and the
broadcast events published during the request. -/
structure CreateResult where
  resp : CreateResp
  db : DB
  events : List String
deriving Repr, DecidableEq

/-- Handler `POST /api/orders`: reject with 401 when the order type is
not the exact string `counter` and the userId is falsy; otherwise create
the order, process each item (order-item row plus stock deduction for
non-exempt products), and broadcast `order_created`. -/
def postOrders (db : DB) (body : OrderReqBody) (newId : String) (now : Nat) :
    CreateResult :=
  if !(body.orderType == some "counter") && !truthyStr body.userId then
    ⟨.unauthorized, db, []⟩
  else
    let order := createOrder body newId now
    let db := { db with orders := db.orders ++ [order] }
    let db :=
      match body.items with
      | some items => items.foldl (fun acc it => processOrderItem acc order.id it) db
      | none => db
    ⟨.created order, db, ["order_created"]⟩

/-- Timestamp switch of `PATCH /api/orders/:id/status`: set the single
timestamp field matching the new status; `cancelled` (and any other
status) sets none. -/
def applyStatusTimestamp (o : Order) (newStatus : String) (now : Nat) : Order :=
  match newStatus with
  | "accepted" => { o with acceptedAt := some now }
  | "preparing" => { o with preparingAt := some now }
  | "ready" => { o with readyAt := some now }
  | "dispatched" => { o with dispatchedAt := some now }
  | "arrived" => { o with arrivedAt := some now }
  | "delivered" => { o with deliveredAt := some now }
  | _ => o

/-- Loop body of the cancellation stock restore: when the item's product
exists and is not prepared/exempt, add the quantity back (no clamping)
and append a ledger entry whose `change` is the requested `+quantity`. -/
def restoreOrderItem (db : DB) (preparedCatIds : List String) (orderId : String)
    (item : OrderItem) : DB :=
  match findProduct db item.productId with
  | none => db
  | some product =>
    if product.isPrepared || preparedCatIds.contains product.categoryId then db
    else
      let previousStock := product.stock
      let newStock := previousStock + item.quantity
      let db := updateProductStock db item.productId newStock
      addStockLog db
        ⟨item.productId, previousStock, newStock, item.quantity,
         "Cancelamento pedido #" ++ takeStr orderId 8⟩

/-- Cancellation branch of `PATCH /api/orders/:id/status`: compute the
prepared-category id set once, then restore stock for every item of the
order. -/
def restoreStockForOrder (db : DB) (orderId : String) : DB :=
  let preparedCatIds := preparedCategoryIds db.categories
  (getOrderItems db orderId).foldl
    (fun acc it => restoreOrderItem acc preparedCatIds orderId it) db

/-- Response of `PATCH /api/orders/:id/status`. -/
inductive StatusResp where
  | notFound
  | invalidTransition (currentStatus : String) (allowedTransitions : List String)
  | ok (order : Order)
deriving Repr, DecidableEq

/-- Result of `PATCH /api/orders/:id/status`. -/
structure StatusResult where
  resp : StatusResp
  db : DB
  events : List String
deriving Repr, DecidableEq

/-- Handler `PATCH /api/orders/:id/status`: look up the order, validate
the transition against the table selected by the order's type, reject
invalid transitions with the current status and the allowed list, run
the cancellation stock restore when moving to `cancelled`, merge
`{ status }` plus the matching timestamp into the order, and broadcast
`order_status_changed`. -/
def patchOrderStatus (db : DB) (orderId status : String) (now : Nat) :
    StatusResult :=
  match findOrder db orderId with
  | none => ⟨.notFound, db, []⟩
  | some order =>
    let tr := isValidStatusTransition order.status status (some order.orderType)
    if tr.valid then
      let db1 := if status == "cancelled" then restoreStockForOrder db orderId else db
      let updated := applyStatusTimestamp { order with status := status } status now
      ⟨.ok updated, updateOrder db1 orderId updated, ["order_status_changed"]⟩
    else
      ⟨.invalidTransition order.status tr.transitions, db, []⟩

/-- Response of `PATCH /api/orders/:id/assign`. -/
inductive AssignResp where
  | notFound
  | notReady (currentStatus : String)
  | notDelivery (orderType : String)
  | ok (order : Order)
deriving Repr, DecidableEq

/-- Result of `PATCH /api/orders/:id/assign`. -/
structure AssignResult where
  resp : AssignResp
  db : DB
  events : List String
deriving Repr, DecidableEq

/-- Handler `PATCH /api/orders/:id/assign`: require status `ready`, then
order type `delivery`; on success set the courier reference, status
`dispatched` and the dispatched timestamp, and broadcast only
`order_assigned`. -/
def patchOrderAssign (db : DB) (orderId : String) (motoboyId : Option String)
    (now : Nat) : AssignResult :=
  match findOrder db orderId with
  | none => ⟨.notFound, db, []⟩
  | some order =>
    if !(order.status == "ready") then ⟨.notReady order.status, db, []⟩
    else if !(order.orderType == "delivery") then
      ⟨.notDelivery order.orderType, db, []⟩
    else
      let updated := { order with
        motoboyId := motoboyId
        status := "dispatched"
        dispatchedAt := some now }
      ⟨.ok updated, updateOrder db orderId updated, ["order_assigned"]⟩

/-- Response of `PATCH /api/orders/:id/delivery-fee`. -/
inductive FeeResp where
  | badRequest
  | notFound
  | ok (order : Order)
deriving Repr, DecidableEq

/-- Result of `PATCH /api/orders/:id/delivery-fee`. -/
structure FeeResult where
  resp : FeeResp
  db : DB
  events : List String
deriving Repr, DecidableEq

/-- Handler `PATCH /api/orders/:id/delivery-fee`: reject a missing or
non-numeric fee, otherwise (with no guard on the order's status) keep
the already-stored original fee or snapshot the current one, recompute
`total = subtotal - discount + newFee`, mark the order fee-adjusted with
a timestamp, and broadcast `order_fee_updated`. -/
def patchDeliveryFee (db : DB) (orderId : String) (deliveryFee : Option Rat)
    (now : Nat) : FeeResult :=
  match deliveryFee with
  | none => ⟨.badRequest, db, []⟩
  | some fee =>
    match findOrder db orderId with
    | none => ⟨.notFound, db, []⟩
    | some order =>
      let originalFee := order.originalDeliveryFee.getD order.deliveryFee
      let newTotal := order.subtotal - (order.discount.getD 0) + fee
      let updated := { order with
        deliveryFee := fee
        originalDeliveryFee := some originalFee
        deliveryFeeAdjusted := true
        deliveryFeeAdjustedAt := some now
        total := newTotal }
      ⟨.ok updated, updateOrder db orderId updated, ["order_fee_updated"]⟩

/-- Response of `POST /api/orders/:orderId/items/:itemId/ingredients`. -/
inductive IngredResp where
  | badRequest
  | ok (ing : PreparationIngredient)
deriving Repr, DecidableEq

/-- Result of the ingredients endpoint. -/
structure IngredResult where
  resp : IngredResp
  db : DB
deriving Repr, DecidableEq

/-- Handler `POST /api/orders/:orderId/items/:itemId/ingredients`:
reject a falsy product id or quantity, record the ingredient, and
unless `shouldDeductStock` is exactly `false`, clamp the ingredient
product's stock at zero and log the requested `-quantity`. -/
def postIngredients (db : DB) (orderId itemId : String)
    (ingredientProductId : Option String) (quantity : Option Int)
    (shouldDeductStock : Option Bool) : IngredResult :=
  match ingredientProductId, quantity with
  | some pid, some q =>
    if pid == "" || q == 0 then ⟨.badRequest, db⟩
    else
      let ing : PreparationIngredient := ⟨itemId, pid, q⟩
      let db := { db with prepIngredients := db.prepIngredients ++ [ing] }
      if shouldDeductStock == some false then ⟨.ok ing, db⟩
      else
        match findProduct db pid with
        | none => ⟨.ok ing, db⟩
        | some product =>
          let newStock := max 0 (product.stock - q)
          let db := updateProductStock db pid newStock
          let db := addStockLog db
            ⟨pid, product.stock, newStock, -q,
             "Ingredient used in order " ++ orderId⟩
          ⟨.ok ing, db⟩
  | _, _ => ⟨.badRequest, db⟩

/-- One SSE client channel: whether writes to it currently fail, and the
events successfully written to it. -/
structure Channel where
  id : Nat
  failing : Bool
  received : List String
deriving Repr, DecidableEq

/-- The module-level `orderClients` registry. -/
structure Registry where
  channels : List Channel
deriving Repr, DecidableEq

/-- Broadcaster `broadcastOrderUpdate`: write the event to every
registered channel; a channel whose write throws is deleted from the
registry and not retried. -/
def broadcastOrderUpdate (reg : Registry) (event : String) : Registry :=
  ⟨reg.channels.filterMap fun c =>
    if c.failing then none
    else some { c with received := c.received ++ [event] }⟩

/-- SSE registration (`GET /api/orders/sse`): write the `connected`
acknowledgment to the new channel, then add it to the registry; if that
initial write throws, the channel is never added. -/
def registerClient (reg : Registry) (c : Channel) : Registry :=
  if c.failing then reg
  else ⟨reg.channels ++ [{ c with received := c.received ++ ["connected"] }]⟩

/-- Delivery transition table transcribed from the specification text:
pending to accepted or cancelled, accepted to preparing or cancelled,
preparing to ready or cancelled, ready to dispatched or cancelled,
dispatched to arrived, delivered or cancelled, arrived to delivered or
cancelled, with delivered and cancelled terminal. -/
def specDeliveryAllowedNext : String → List String
  | "pending" => ["accepted", "cancelled"]
  | "accepted" => ["preparing", "cancelled"]
  | "preparing" => ["ready", "cancelled"]
  | "ready" => ["dispatched", "cancelled"]
  | "dispatched" => ["arrived", "delivered", "cancelled"]
  | "arrived" => ["delivered", "cancelled"]
  | "delivered" => []
  | "cancelled" => []
  | _ => []

/-- Counter transition table transcribed from the specification text:
identical to delivery through ready, then ready goes directly to
delivered or cancelled, with no dispatched or arrived states. -/
def specCounterAllowedNext : String → List String
  | "pending" => ["accepted", "cancelled"]
  | "accepted" => ["preparing", "cancelled"]
  | "preparing" => ["ready", "cancelled"]
  | "ready" => ["delivered", "cancelled"]
  | "delivered" => []
  | "cancelled" => []
  | _ => []

/-- Allowed-next set as the specification describes it: the table is
selected by the order's type. -/
def allowedNextSpec (order : Order) : List String :=
  if order.orderType = "counter" then specCounterAllowedNext order.status
  else specDeliveryAllowedNext order.status

theorem specDelivery_eq_table (s : String) :
    specDeliveryAllowedNext s = VALID_STATUS_TRANSITIONS s := rfl

theorem specCounter_eq_table (s : String) :
    specCounterAllowedNext s = COUNTER_TRANSITIONS s := rfl

/-- Base order fixture used throughout the concrete witnesses. -/
def baseOrder : Order :=
  { id := "o1", userId := "u1", addressId := none, orderType := "delivery",
    status := "pending", subtotal := 10, deliveryFee := 5,
    originalDeliveryFee := none, deliveryFeeAdjusted := false,
    deliveryFeeAdjustedAt := none, deliveryDistance := none, discount := none,
    total := 15, paymentMethod := "cash", changeFor := none, notes := none,
    customerName := none, salesperson := none, motoboyId := none,
    createdAt := some 0, acceptedAt := none, preparingAt := none,
    readyAt := none, dispatchedAt := none, arrivedAt := none,
    deliveredAt := none }

/-- Database fixture holding a single order and nothing else. -/
def dbWithOrder (o : Order) : DB :=
  { categories := [], products := [], orders := [o], orderItems := [],
    stockLogs := [], prepIngredients := [] }

/-- C1: the status-change operation succeeds exactly when the requested
status is in the allowed-next set for the order's current status in the
transition table selected by the order's type; otherwise it returns the
invalid-transition error carrying the current status and the full
allowed-next list, and the storage state is left unmodified. -/
theorem statusChange_matches_transition_tables
    (db : DB) (orderId newStatus : String) (now : Nat) (order : Order)
    (hord : findOrder db orderId = some order)
    (htype : order.orderType = "delivery" ∨ order.orderType = "counter") :
    ((∃ o, (patchOrderStatus db orderId newStatus now).resp = StatusResp.ok o)
        ↔ newStatus ∈ allowedNextSpec order) ∧
    (newStatus ∉ allowedNextSpec order →
      (patchOrderStatus db orderId newStatus now).resp
          = StatusResp.invalidTransition order.status (allowedNextSpec order) ∧
        (patchOrderStatus db orderId newStatus now).db = db) := by
  have hval : isValidStatusTransition order.status newStatus (some order.orderType)
      = ⟨(allowedNextSpec order).contains newStatus, allowedNextSpec order⟩ := by
    rcases htype with h | h <;>
      simp [isValidStatusTransition, allowedNextSpec, h,
        specDelivery_eq_table, specCounter_eq_table]
  by_cases hmem : newStatus ∈ allowedNextSpec order
  · constructor
    · constructor
      · intro _; exact hmem
      · intro _
        refine ⟨applyStatusTimestamp { order with status := newStatus } newStatus now, ?_⟩
        simp [patchOrderStatus, hord, hval, hmem]
    · intro hno; exact absurd hmem hno
  · constructor
    · constructor
      · intro ⟨o, ho⟩
        simp [patchOrderStatus, hord, hval, hmem] at ho
      · intro hm; exact absurd hm hmem
    · intro _
      constructor
      · simp [patchOrderStatus, hord, hval, hmem]
      · simp [patchOrderStatus, hord, hval, hmem]

/-- Witness for C1 at a concrete delivery order in status pending with
the legal request accepted and the illegal request delivered. -/
theorem statusChange_matches_transition_tables_witness :
    ((∃ o, (patchOrderStatus (dbWithOrder baseOrder) "o1" "accepted" 7).resp
        = StatusResp.ok o)
      ↔ "accepted" ∈ allowedNextSpec baseOrder) ∧
    ("delivered" ∉ allowedNextSpec baseOrder →
      (patchOrderStatus (dbWithOrder baseOrder) "o1" "delivered" 7).resp
          = StatusResp.invalidTransition baseOrder.status (allowedNextSpec baseOrder) ∧
        (patchOrderStatus (dbWithOrder baseOrder) "o1" "delivered" 7).db
          = dbWithOrder baseOrder) := by
  constructor
  · exact (statusChange_matches_transition_tables (dbWithOrder baseOrder) "o1"
      "accepted" 7 baseOrder rfl (Or.inl rfl)).1
  · exact (statusChange_matches_transition_tables (dbWithOrder baseOrder) "o1"
      "delivered" 7 baseOrder rfl (Or.inl rfl)).2

/-- C9: any order type other than the exact string counter, including a
missing order type, selects the delivery transition table. -/
theorem nonCounter_selects_delivery_table
    (currentStatus newStatus : String) (orderType : Option String)
    (h : orderType ≠ some "counter") :
    isValidStatusTransition currentStatus newStatus orderType
      = ⟨(VALID_STATUS_TRANSITIONS currentStatus).contains newStatus,
         VALID_STATUS_TRANSITIONS currentStatus⟩ := by
  have hb : (orderType == some "counter") = false := beq_eq_false_iff_ne.mpr h
  simp [isValidStatusTransition, hb]

/-- Witness for C9 at the made-up order type pickup and at a missing
order type. -/
theorem nonCounter_selects_delivery_table_witness :
    isValidStatusTransition "ready" "dispatched" (some "pickup")
      = ⟨(VALID_STATUS_TRANSITIONS "ready").contains "dispatched",
         VALID_STATUS_TRANSITIONS "ready"⟩ ∧
    isValidStatusTransition "ready" "dispatched" none
      = ⟨(VALID_STATUS_TRANSITIONS "ready").contains "dispatched",
         VALID_STATUS_TRANSITIONS "ready"⟩ := by
  constructor
  · exact nonCounter_selects_delivery_table "ready" "dispatched" (some "pickup")
      (by decide)
  · exact nonCounter_selects_delivery_table "ready" "dispatched" none
      (by decide)

/-- C10: creating an order whose type is not the exact string counter
with a falsy userId fails with the 401 response before any mutation: the
storage state is returned unchanged and no event is broadcast. -/
theorem createOrder_missing_user_rejected_before_mutation
    (db : DB) (body : OrderReqBody) (newId : String) (now : Nat)
    (hot : body.orderType ≠ some "counter")
    (huid : truthyStr body.userId = false) :
    (postOrders db body newId now).resp = CreateResp.unauthorized ∧
    (postOrders db body newId now).db = db ∧
    (postOrders db body newId now).events = [] := by
  have hb : (body.orderType == some "counter") = false := beq_eq_false_iff_ne.mpr hot
  refine ⟨?_, ?_, ?_⟩ <;> simp [postOrders, hb, huid]

/-- Witness for C10: a delivery-typed body with no userId at all. -/
theorem createOrder_missing_user_rejected_before_mutation_witness :
    (postOrders (dbWithOrder baseOrder)
        { userId := none, orderType := some "delivery", status := none,
          addressId := none, subtotal := 10, deliveryFee := 5,
          deliveryDistance := none, discount := none, total := 15,
          paymentMethod := "cash", changeFor := none, notes := none,
          customerName := none, salesperson := none, items := none }
        "o2" 9).resp = CreateResp.unauthorized ∧
    (postOrders (dbWithOrder baseOrder)
        { userId := none, orderType := some "delivery", status := none,
          addressId := none, subtotal := 10, deliveryFee := 5,
          deliveryDistance := none, discount := none, total := 15,
          paymentMethod := "cash", changeFor := none, notes := none,
          customerName := none, salesperson := none, items := none }
        "o2" 9).db = dbWithOrder baseOrder ∧
    (postOrders (dbWithOrder baseOrder)
        { userId := none, orderType := some "delivery", status := none,
          addressId := none, subtotal := 10, deliveryFee := 5,
          deliveryDistance := none, discount := none, total := 15,
          paymentMethod := "cash", changeFor := none, notes := none,
          customerName := none, salesperson := none, items := none }
        "o2" 9).events = [] :=
  createOrder_missing_user_rejected_before_mutation (dbWithOrder baseOrder) _ "o2" 9
    (by decide) (by decide)

/-- Helper: after replacing the first order found under an id by an
update carrying the same id, looking the id up again yields the
update. -/
theorem find_update_list (l : List Order) (orderId : String) (order updated : Order)
    (h : l.find? (fun o => o.id == orderId) = some order)
    (hid : updated.id = order.id) :
    (l.map fun o => if o.id == orderId then updated else o).find?
        (fun o => o.id == orderId) = some updated := by
  induction l with
  | nil => simp at h
  | cons a as ih =>
    by_cases ha : (a.id == orderId) = true
    · have ha2 : (fun (o : Order) => o.id == orderId) a = true := ha
      rw [List.find?_cons_of_pos as ha2] at h
      have hao : a = order := by simpa using h
      have hub : (fun (o : Order) => o.id == orderId) updated = true := by
        show (updated.id == orderId) = true
        subst hao; rw [hid]; exact ha
      simp only [List.map_cons, ha, if_true]
      exact List.find?_cons_of_pos _ hub
    · have ha2 : ¬ (fun (o : Order) => o.id == orderId) a = true := ha
      rw [List.find?_cons_of_neg as ha2] at h
      have hmap : (if (a.id == orderId) = true then updated else a) = a := by
        simp [ha]
      simp only [List.map_cons, hmap]
      have hstep : List.find? (fun o => o.id == orderId)
            (a :: List.map (fun o => if (o.id == orderId) = true then updated else o) as)
          = List.find? (fun o => o.id == orderId)
            (List.map (fun o => if (o.id == orderId) = true then updated else o) as) :=
        List.find?_cons_of_neg _ ha2
      rw [hstep]
      exact ih h

/-- Helper: the fee-adjustment update written by the delivery-fee route
for a given stored order, fee and clock. -/
def feeAdjustedOrder (order : Order) (fee : Rat) (now : Nat) : Order :=
  { order with
    deliveryFee := fee
    originalDeliveryFee := some (order.originalDeliveryFee.getD order.deliveryFee)
    deliveryFeeAdjusted := true
    deliveryFeeAdjustedAt := some now
    total := order.subtotal - (order.discount.getD 0) + fee }

/-- C6: delivery-fee adjustment works on an order in any status; it
recomputes the total as subtotal minus discount plus the new fee, marks
the order fee-adjusted with a timestamp, publishes the fee-updated
event, and snapshots the original fee only on the first adjustment; a
second adjustment leaves the stored original fee unchanged. -/
theorem deliveryFee_adjustment_any_status
    (db : DB) (orderId : String) (fee fee2 : Rat) (now now2 : Nat) (order : Order)
    (hord : findOrder db orderId = some order) :
    ∃ updated,
      (patchDeliveryFee db orderId (some fee) now).resp = FeeResp.ok updated ∧
      (patchDeliveryFee db orderId (some fee) now).events = ["order_fee_updated"] ∧
      updated.deliveryFee = fee ∧
      updated.total = order.subtotal - (order.discount.getD 0) + fee ∧
      updated.deliveryFeeAdjusted = true ∧
      updated.deliveryFeeAdjustedAt = some now ∧
      updated.originalDeliveryFee
        = some (order.originalDeliveryFee.getD order.deliveryFee) ∧
      ∃ updated2,
        (patchDeliveryFee (patchDeliveryFee db orderId (some fee) now).db
            orderId (some fee2) now2).resp = FeeResp.ok updated2 ∧
        updated2.originalDeliveryFee
          = some (order.originalDeliveryFee.getD order.deliveryFee) := by
  refine ⟨feeAdjustedOrder order fee now, ?_, ?_, rfl, rfl, rfl, rfl, rfl, ?_⟩
  · simp [patchDeliveryFee, hord, feeAdjustedOrder]
  · simp [patchDeliveryFee, hord]
  · have hfind2 : findOrder (patchDeliveryFee db orderId (some fee) now).db orderId
        = some (feeAdjustedOrder order fee now) := by
      have : (patchDeliveryFee db orderId (some fee) now).db
          = updateOrder db orderId (feeAdjustedOrder order fee now) := by
        simp [patchDeliveryFee, hord, feeAdjustedOrder]
      rw [this]
      exact find_update_list db.orders orderId order (feeAdjustedOrder order fee now)
        hord rfl
    refine ⟨feeAdjustedOrder (feeAdjustedOrder order fee now) fee2 now2, ?_, ?_⟩
    · have H : ∀ (db' : DB) (o' : Order), findOrder db' orderId = some o' →
          (patchDeliveryFee db' orderId (some fee2) now2).resp
            = FeeResp.ok (feeAdjustedOrder o' fee2 now2) := by
        intro db' o' h'
        simp [patchDeliveryFee, h', feeAdjustedOrder]
      exact H _ _ hfind2
    · simp [feeAdjustedOrder]

/-- Witness for C6 on an already delivered order: the adjustment
succeeds and both the first and the second adjustment keep the original
five as the snapshot. -/
theorem deliveryFee_adjustment_any_status_witness :
    ∃ updated,
      (patchDeliveryFee (dbWithOrder { baseOrder with status := "delivered" })
          "o1" (some 8) 11).resp = FeeResp.ok updated ∧
      (patchDeliveryFee (dbWithOrder { baseOrder with status := "delivered" })
          "o1" (some 8) 11).events = ["order_fee_updated"] ∧
      updated.deliveryFee = 8 ∧
      updated.total = (10 : Rat) - 0 + 8 ∧
      updated.deliveryFeeAdjusted = true ∧
      updated.deliveryFeeAdjustedAt = some 11 ∧
      updated.originalDeliveryFee = some 5 ∧
      ∃ updated2,
        (patchDeliveryFee
            (patchDeliveryFee (dbWithOrder { baseOrder with status := "delivered" })
              "o1" (some 8) 11).db "o1" (some 3) 12).resp = FeeResp.ok updated2 ∧
        updated2.originalDeliveryFee = some 5 :=
  deliveryFee_adjustment_any_status
    (dbWithOrder { baseOrder with status := "delivered" }) "o1" 8 3 11 12
    { baseOrder with status := "delivered" } rfl

/-- C5 amended: courier assignment succeeds exactly when the order is
ready and of delivery type; on success it sets the courier reference,
status dispatched and the dispatched timestamp and publishes only the
assignment event (no separate status-changed event); on a precondition
failure it returns the descriptive error and the storage state is
unchanged. -/
theorem assignCourier_preconditions_and_effects
    (db : DB) (orderId : String) (motoboyId : Option String) (now : Nat)
    (order : Order) (hord : findOrder db orderId = some order) :
    (order.status = "ready" → order.orderType = "delivery" →
      (patchOrderAssign db orderId motoboyId now).resp
          = AssignResp.ok { order with
              motoboyId := motoboyId, status := "dispatched",
              dispatchedAt := some now } ∧
        (patchOrderAssign db orderId motoboyId now).events = ["order_assigned"]) ∧
    (order.status ≠ "ready" →
      (patchOrderAssign db orderId motoboyId now).resp
          = AssignResp.notReady order.status ∧
        (patchOrderAssign db orderId motoboyId now).db = db ∧
        (patchOrderAssign db orderId motoboyId now).events = []) ∧
    (order.status = "ready" → order.orderType ≠ "delivery" →
      (patchOrderAssign db orderId motoboyId now).resp
          = AssignResp.notDelivery order.orderType ∧
        (patchOrderAssign db orderId motoboyId now).db = db ∧
        (patchOrderAssign db orderId motoboyId now).events = []) := by
  refine ⟨?_, ?_, ?_⟩
  · intro hs ht
    constructor <;> simp [patchOrderAssign, hord, hs, ht]
  · intro hs
    refine ⟨?_, ?_, ?_⟩ <;> simp [patchOrderAssign, hord, hs]
  · intro hs ht
    refine ⟨?_, ?_, ?_⟩ <;> simp [patchOrderAssign, hord, hs, ht]

/-- Witness for C5 on a ready delivery order and on a ready counter
order. -/
theorem assignCourier_preconditions_and_effects_witness :
    ((patchOrderAssign (dbWithOrder { baseOrder with status := "ready" })
        "o1" (some "m1") 4).resp
      = AssignResp.ok { { baseOrder with status := "ready" } with
          motoboyId := some "m1", status := "dispatched",
          dispatchedAt := some 4 } ∧
      (patchOrderAssign (dbWithOrder { baseOrder with status := "ready" })
        "o1" (some "m1") 4).events = ["order_assigned"]) ∧
    ((patchOrderAssign
        (dbWithOrder { baseOrder with status := "ready", orderType := "counter" })
        "o1" (some "m1") 4).resp = AssignResp.notDelivery "counter") := by
  constructor
  · exact (assignCourier_preconditions_and_effects
      (dbWithOrder { baseOrder with status := "ready" }) "o1" (some "m1") 4
      { baseOrder with status := "ready" } rfl).1 rfl rfl
  · exact ((assignCourier_preconditions_and_effects
      (dbWithOrder { baseOrder with status := "ready", orderType := "counter" })
      "o1" (some "m1") 4
      { baseOrder with status := "ready", orderType := "counter" } rfl).2.2 rfl
      (by decide)).1

/-- Timestamp field corresponding to a status: statuses without a
matching column (pending has only createdAt, cancelled has none) map to
none. -/
def tsOf (s : String) (o : Order) : Option Nat :=
  match s with
  | "accepted" => o.acceptedAt
  | "preparing" => o.preparingAt
  | "ready" => o.readyAt
  | "dispatched" => o.dispatchedAt
  | "arrived" => o.arrivedAt
  | "delivered" => o.deliveredAt
  | _ => none

/-- Helper: every status reachable through the delivery table is one of
the seven post-pending statuses. -/
theorem delivery_table_statuses (cur x : String)
    (h : x ∈ VALID_STATUS_TRANSITIONS cur) :
    x ∈ ["accepted", "preparing", "ready", "dispatched", "arrived",
         "delivered", "cancelled"] := by
  unfold VALID_STATUS_TRANSITIONS at h
  split at h <;> simp_all <;> tauto

/-- Helper: every status reachable through the counter table is one of
the seven post-pending statuses. -/
theorem counter_table_statuses (cur x : String)
    (h : x ∈ COUNTER_TRANSITIONS cur) :
    x ∈ ["accepted", "preparing", "ready", "dispatched", "arrived",
         "delivered", "cancelled"] := by
  unfold COUNTER_TRANSITIONS at h
  split at h <;> simp_all <;> tauto

/-- Helper: a transition the validator accepts targets one of the seven
post-pending statuses. -/
theorem valid_target_known (cur ns : String) (ot : Option String)
    (h : (isValidStatusTransition cur ns ot).valid = true) :
    ns ∈ ["accepted", "preparing", "ready", "dispatched", "arrived",
          "delivered", "cancelled"] := by
  unfold isValidStatusTransition at h
  by_cases hot : (ot == some "counter") = true
  · simp only [hot, if_true] at h
    exact counter_table_statuses cur ns (by simpa using h)
  · simp only [hot, if_false, Bool.false_eq_true] at h
    exact delivery_table_statuses cur ns (by simpa using h)

/-- C4 amended: a valid status transition to any status other than
cancelled sets exactly the one timestamp field matching the new status
(overwriting any prior value), leaves every other timestamp field
untouched, and changes no other order field except status; a valid
transition to cancelled changes the status and no timestamp field at
all (the schema has no cancelled timestamp column). -/
theorem validTransition_timestamp_frame
    (db : DB) (orderId ns : String) (now : Nat) (order updated : Order)
    (hord : findOrder db orderId = some order)
    (hok : (patchOrderStatus db orderId ns now).resp = StatusResp.ok updated) :
    updated.status = ns ∧
    (ns ≠ "cancelled" →
      tsOf ns updated = some now ∧
      ∀ s ∈ ["accepted", "preparing", "ready", "dispatched", "arrived",
             "delivered"], s ≠ ns → tsOf s updated = tsOf s order) ∧
    (ns = "cancelled" →
      ∀ s ∈ ["accepted", "preparing", "ready", "dispatched", "arrived",
             "delivered"], tsOf s updated = tsOf s order) ∧
    updated.id = order.id ∧ updated.userId = order.userId ∧
    updated.addressId = order.addressId ∧ updated.orderType = order.orderType ∧
    updated.subtotal = order.subtotal ∧ updated.deliveryFee = order.deliveryFee ∧
    updated.originalDeliveryFee = order.originalDeliveryFee ∧
    updated.deliveryFeeAdjusted = order.deliveryFeeAdjusted ∧
    updated.deliveryFeeAdjustedAt = order.deliveryFeeAdjustedAt ∧
    updated.deliveryDistance = order.deliveryDistance ∧
    updated.discount = order.discount ∧ updated.total = order.total ∧
    updated.paymentMethod = order.paymentMethod ∧
    updated.changeFor = order.changeFor ∧ updated.notes = order.notes ∧
    updated.customerName = order.customerName ∧
    updated.salesperson = order.salesperson ∧
    updated.motoboyId = order.motoboyId ∧ updated.createdAt = order.createdAt := by
  have hvalid : (isValidStatusTransition order.status ns (some order.orderType)).valid
      = true := by
    by_contra hv
    have hvf : (isValidStatusTransition order.status ns (some order.orderType)).valid
        = false := by simpa using hv
    simp [patchOrderStatus, hord, hvf] at hok
  have hupd : updated = applyStatusTimestamp { order with status := ns } ns now := by
    have h2 := hok
    simp only [patchOrderStatus, hord, hvalid, if_true] at h2
    have h3 : applyStatusTimestamp { order with status := ns } ns now = updated := by
      simpa using h2
    exact h3.symm
  have hknown := valid_target_known order.status ns (some order.orderType) hvalid
  subst hupd
  simp only [List.mem_cons, List.mem_singleton, List.not_mem_nil, or_false] at hknown
  rcases hknown with h | h | h | h | h | h | h <;> subst h <;>
    refine ⟨rfl, ?_, ?_, rfl, rfl, rfl, rfl, rfl, rfl, rfl, rfl, rfl, rfl, rfl,
      rfl, rfl, rfl, rfl, rfl, rfl, rfl, rfl⟩ <;>
    intro h1 <;>
    first
      | exact absurd h1 (by decide)
      | (refine ⟨rfl, ?_⟩
         intro s hs hne
         fin_cases hs <;> first | exact absurd rfl hne | rfl)
      | (intro s hs
         fin_cases hs <;> rfl)

/-- Witness for C4 on a concrete transition from pending to accepted. -/
theorem validTransition_timestamp_frame_witness :
    (applyStatusTimestamp { baseOrder with status := "accepted" } "accepted" 7).status
        = "accepted" ∧
    tsOf "accepted"
        (applyStatusTimestamp { baseOrder with status := "accepted" } "accepted" 7)
      = some 7 ∧
    (applyStatusTimestamp { baseOrder with status := "accepted" } "accepted" 7).total
      = baseOrder.total := by
  have h := validTransition_timestamp_frame (dbWithOrder baseOrder) "o1" "accepted"
    7 baseOrder
    (applyStatusTimestamp { baseOrder with status := "accepted" } "accepted" 7)
    rfl (by decide)
  exact ⟨h.1, (h.2.1 (by decide)).1, h.2.2.2.2.2.2.2.2.2.2.2.2.2.2.1⟩

/-- Counterexample to C4 as stated: the valid transition of a pending
delivery order to cancelled succeeds but sets no timestamp field at all
(the claim demands exactly one timestamp field be set on every valid
transition). -/
theorem cancelled_sets_no_timestamp_counterexample :
    (patchOrderStatus (dbWithOrder baseOrder) "o1" "cancelled" 9).resp
      = StatusResp.ok { baseOrder with status := "cancelled" } ∧
    ({ baseOrder with status := "cancelled" } : Order).acceptedAt = none ∧
    ({ baseOrder with status := "cancelled" } : Order).preparingAt = none ∧
    ({ baseOrder with status := "cancelled" } : Order).readyAt = none ∧
    ({ baseOrder with status := "cancelled" } : Order).dispatchedAt = none ∧
    ({ baseOrder with status := "cancelled" } : Order).arrivedAt = none ∧
    ({ baseOrder with status := "cancelled" } : Order).deliveredAt = none := by
  refine ⟨by decide, rfl, rfl, rfl, rfl, rfl, rfl⟩

/-- C8: a publish reaches exactly the live channels registered before
the call, each receiving the event once; channels whose write fails are
removed from the registry by that publish; every channel surviving a
publish is a pre-registered live channel with just that event appended
(so a channel registered after the publish never holds it); and
registering a live channel appends it to the registry with the connected
acknowledgment pushed onto it. -/
theorem broadcaster_publish_semantics (reg : Registry) (e : String) (c : Channel) :
    (c ∈ reg.channels → c.failing = false →
      { c with received := c.received ++ [e] }
        ∈ (broadcastOrderUpdate reg e).channels) ∧
    (∀ c2 ∈ (broadcastOrderUpdate reg e).channels, c2.failing = false) ∧
    (∀ c2 ∈ (broadcastOrderUpdate reg e).channels,
      ∃ c0 ∈ reg.channels, c0.failing = false ∧
        c2 = { c0 with received := c0.received ++ [e] }) ∧
    (c.failing = false →
      (registerClient (broadcastOrderUpdate reg e) c).channels
        = (broadcastOrderUpdate reg e).channels
            ++ [{ c with received := c.received ++ ["connected"] }]) := by
  refine ⟨?_, ?_, ?_, ?_⟩
  · intro hc hf
    exact List.mem_filterMap.mpr ⟨c, hc, by simp [hf]⟩
  · intro c2 h2
    obtain ⟨c0, h0, hf0⟩ := List.mem_filterMap.mp h2
    by_cases hb : c0.failing
    · simp [hb] at hf0
    · have hf' : c0.failing = false := by simpa using hb
      simp only [hf'] at hf0
      have h3 : ({ id := c0.id, failing := false,
                     received := c0.received ++ [e] } : Channel) = c2 := by
        simpa using hf0
      rw [← h3]
  · intro c2 h2
    obtain ⟨c0, h0, hf0⟩ := List.mem_filterMap.mp h2
    by_cases hb : c0.failing
    · simp [hb] at hf0
    · have hf' : c0.failing = false := by simpa using hb
      simp only [hf'] at hf0
      have h3 : ({ id := c0.id, failing := false,
                     received := c0.received ++ [e] } : Channel) = c2 := by
        simpa using hf0
      refine ⟨c0, h0, hf', ?_⟩
      rw [← h3, hf']
  · intro hf
    simp [registerClient, hf]

/-- Witness for C8 on a registry with one live and one failing channel:
the live channel receives the event, the failing channel is pruned, and
a subsequently registered channel holds only the connected
acknowledgment. -/
theorem broadcaster_publish_semantics_witness :
    (⟨1, false, ["order_created"]⟩ : Channel)
        ∈ (broadcastOrderUpdate ⟨[⟨1, false, []⟩, ⟨2, true, []⟩]⟩
            "order_created").channels ∧
    (∀ c2 ∈ (broadcastOrderUpdate ⟨[⟨1, false, []⟩, ⟨2, true, []⟩]⟩
        "order_created").channels, c2.failing = false) ∧
    (registerClient (broadcastOrderUpdate ⟨[⟨1, false, []⟩, ⟨2, true, []⟩]⟩
          "order_created") ⟨3, false, []⟩).channels
      = (broadcastOrderUpdate ⟨[⟨1, false, []⟩, ⟨2, true, []⟩]⟩
          "order_created").channels ++ [⟨3, false, ["connected"]⟩] := by
  have h1 := broadcaster_publish_semantics ⟨[⟨1, false, []⟩, ⟨2, true, []⟩]⟩
    "order_created" ⟨1, false, []⟩
  have h3 := broadcaster_publish_semantics ⟨[⟨1, false, []⟩, ⟨2, true, []⟩]⟩
    "order_created" ⟨3, false, []⟩
  exact ⟨h1.1 (by decide) rfl, h1.2.1, h3.2.2.2 rfl⟩

/-- Helper: a stock overwrite under a different product id does not
change what a lookup finds. -/
theorem find_stockmap_ne (ps : List Product) (pid pid2 : String) (ns : Int)
    (h : pid ≠ pid2) :
    (ps.map fun q => if q.id == pid2 then { q with stock := ns } else q).find?
        (fun q => q.id == pid)
      = ps.find? (fun q => q.id == pid) := by
  induction ps with
  | nil => rfl
  | cons a as ih =>
    by_cases ha : (a.id == pid) = true
    · have hae : a.id = pid := by simpa using ha
      have ha2 : (a.id == pid2) = false := by
        rw [hae]; simpa using h
      have hmap : (if (a.id == pid2) = true then { a with stock := ns } else a) = a := by
        simp [ha2]
      simp only [List.map_cons, hmap]
      have hpos : (fun (q : Product) => q.id == pid) a = true := ha
      have e1 : List.find? (fun q => q.id == pid)
          (a :: (as.map fun q => if q.id == pid2 then { q with stock := ns } else q))
          = some a := List.find?_cons_of_pos _ hpos
      have e2 : List.find? (fun q => q.id == pid) (a :: as) = some a :=
        List.find?_cons_of_pos _ hpos
      rw [e1, e2]
    · have hane : a.id ≠ pid := by simpa using ha
      have hneg1 : ¬ (fun (q : Product) => q.id == pid)
          (if (a.id == pid2) = true then { a with stock := ns } else a) = true := by
        by_cases h2 : (a.id == pid2) = true
        · rw [if_pos h2]; simpa using hane
        · rw [if_neg h2]; simpa using hane
      have hneg2 : ¬ (fun (q : Product) => q.id == pid) a = true := ha
      simp only [List.map_cons]
      have e1 : List.find? (fun q => q.id == pid)
          ((if (a.id == pid2) = true then { a with stock := ns } else a)
            :: (as.map fun q => if q.id == pid2 then { q with stock := ns } else q))
          = List.find? (fun q => q.id == pid)
            (as.map fun q => if q.id == pid2 then { q with stock := ns } else q) :=
        List.find?_cons_of_neg _ hneg1
      have e2 : List.find? (fun q => q.id == pid) (a :: as)
          = List.find? (fun q => q.id == pid) as :=
        List.find?_cons_of_neg _ hneg2
      rw [e1, e2]
      exact ih

/-- Helper: a stock overwrite under the looked-up product id rewrites
exactly the found product's stock. -/
theorem find_stockmap_self (ps : List Product) (pid : String) (ns : Int)
    (p : Product) (h : ps.find? (fun q => q.id == pid) = some p) :
    (ps.map fun q => if q.id == pid then { q with stock := ns } else q).find?
        (fun q => q.id == pid)
      = some { p with stock := ns } := by
  induction ps with
  | nil => simp at h
  | cons a as ih =>
    by_cases ha : (a.id == pid) = true
    · have hpos : (fun (q : Product) => q.id == pid) a = true := ha
      have e0 : List.find? (fun q => q.id == pid) (a :: as) = some a :=
        List.find?_cons_of_pos as hpos
      rw [e0] at h
      have hap : a = p := by simpa using h
      subst hap
      have hmap : (if (a.id == pid) = true then { a with stock := ns } else a)
          = { a with stock := ns } := by simp [ha]
      have hpos2 : (fun (q : Product) => q.id == pid) { a with stock := ns } = true := ha
      simp only [List.map_cons, hmap]
      exact List.find?_cons_of_pos _ hpos2
    · have hneg : ¬ (fun (q : Product) => q.id == pid) a = true := ha
      have e0 : List.find? (fun q => q.id == pid) (a :: as)
          = List.find? (fun q => q.id == pid) as :=
        List.find?_cons_of_neg as hneg
      rw [e0] at h
      have hmap : (if (a.id == pid) = true then { a with stock := ns } else a) = a := by
        simp [ha]
      simp only [List.map_cons, hmap]
      have e1 : List.find? (fun q => q.id == pid)
          (a :: (as.map fun q => if q.id == pid then { q with stock := ns } else q))
          = List.find? (fun q => q.id == pid)
            (as.map fun q => if q.id == pid then { q with stock := ns } else q) :=
        List.find?_cons_of_neg _ hneg
      rw [e1]
      exact ih h

/-- Helper: appending a ledger entry for another product does not change
the entries filtered for this one. -/
theorem filter_logs_append_ne (logs : List StockLog) (entry : StockLog)
    (pid : String) (h : (entry.productId == pid) = false) :
    (logs ++ [entry]).filter (fun l => l.productId == pid)
      = logs.filter (fun l => l.productId == pid) := by
  simp [List.filter_append, h]

/-- Helper: the creation item step on an item whose product is missing
only records the order item. -/
theorem processOrderItem_missing (db : DB) (orderId : String) (item : ItemReq)
    (hp : findProduct db item.productId = none) :
    processOrderItem db orderId item
      = { db with
          orderItems := db.orderItems ++
            [⟨orderId, item.productId, item.productName, item.quantity,
              item.unitPrice, item.totalPrice⟩] } := by
  have hp2 : findProduct
      { db with orderItems := db.orderItems ++
          [⟨orderId, item.productId, item.productName, item.quantity,
            item.unitPrice, item.totalPrice⟩] } item.productId = none := hp
  simp [processOrderItem, hp2]

/-- Helper: the creation item step on a prepared/exempt product only
records the order item and leaves stock and ledger untouched. -/
theorem processOrderItem_exempt (db : DB) (orderId : String) (item : ItemReq)
    (p : Product) (hp : findProduct db item.productId = some p)
    (hex : isPreparedProductRoute p db.categories = true) :
    processOrderItem db orderId item
      = { db with
          orderItems := db.orderItems ++
            [⟨orderId, item.productId, item.productName, item.quantity,
              item.unitPrice, item.totalPrice⟩] } := by
  have hp2 : findProduct
      { db with orderItems := db.orderItems ++
          [⟨orderId, item.productId, item.productName, item.quantity,
            item.unitPrice, item.totalPrice⟩] } item.productId = some p := hp
  simp [processOrderItem, hp2, hex]

/-- Helper: the creation item step on a non-exempt existing product
records the order item, clamps the product's stock at zero, and appends
a ledger entry logging the requested negative delta. -/
theorem processOrderItem_nonexempt (db : DB) (orderId : String) (item : ItemReq)
    (p : Product) (hp : findProduct db item.productId = some p)
    (hex : isPreparedProductRoute p db.categories = false) :
    processOrderItem db orderId item
      = { db with
          orderItems := db.orderItems ++
            [⟨orderId, item.productId, item.productName, item.quantity,
              item.unitPrice, item.totalPrice⟩]
          products := db.products.map fun q =>
            if q.id == item.productId then
              { q with stock := max 0 (p.stock - item.quantity) } else q
          stockLogs := db.stockLogs ++
            [⟨item.productId, p.stock, max 0 (p.stock - item.quantity),
              -item.quantity, "Pedido #" ++ takeStr orderId 8⟩] } := by
  have hp2 : findProduct
      { db with orderItems := db.orderItems ++
          [⟨orderId, item.productId, item.productName, item.quantity,
            item.unitPrice, item.totalPrice⟩] } item.productId = some p := hp
  simp [processOrderItem, hp2, hex, updateProductStock, addStockLog]

/-- Helper: the cancellation restore step on an item whose product is
missing changes nothing. -/
theorem restoreOrderItem_missing (db : DB) (preparedCatIds : List String)
    (orderId : String) (item : OrderItem)
    (hp : findProduct db item.productId = none) :
    restoreOrderItem db preparedCatIds orderId item = db := by
  simp [restoreOrderItem, hp]

/-- Helper: the cancellation restore step on a prepared/exempt product
changes nothing. -/
theorem restoreOrderItem_exempt (db : DB) (preparedCatIds : List String)
    (orderId : String) (item : OrderItem) (p : Product)
    (hp : findProduct db item.productId = some p)
    (hex : (p.isPrepared || preparedCatIds.contains p.categoryId) = true) :
    restoreOrderItem db preparedCatIds orderId item = db := by
  simp only [restoreOrderItem, hp]
  rw [hex]
  simp

/-- Helper: the cancellation restore step on a non-exempt existing
product adds the quantity back without clamping and appends a ledger
entry logging the requested positive delta. -/
theorem restoreOrderItem_nonexempt (db : DB) (preparedCatIds : List String)
    (orderId : String) (item : OrderItem) (p : Product)
    (hp : findProduct db item.productId = some p)
    (hex : (p.isPrepared || preparedCatIds.contains p.categoryId) = false) :
    restoreOrderItem db preparedCatIds orderId item
      = { db with
          products := db.products.map fun q =>
            if q.id == item.productId then
              { q with stock := p.stock + item.quantity } else q
          stockLogs := db.stockLogs ++
            [⟨item.productId, p.stock, p.stock + item.quantity, item.quantity,
              "Cancelamento pedido #" ++ takeStr orderId 8⟩] } := by
  simp only [restoreOrderItem, hp]
  rw [hex]
  simp [updateProductStock, addStockLog]

/-- Helper: the creation item step never touches the stock or the
ledger entries of a product that the route exemption test marks
prepared. -/
theorem processOrderItem_spares (db : DB) (orderId : String) (item : ItemReq)
    (pid : String) (p : Product)
    (hp : findProduct db pid = some p)
    (hex : isPreparedProductRoute p db.categories = true) :
    findProduct (processOrderItem db orderId item) pid = some p ∧
    (processOrderItem db orderId item).stockLogs.filter (fun l => l.productId == pid)
      = db.stockLogs.filter (fun l => l.productId == pid) ∧
    (processOrderItem db orderId item).categories = db.categories := by
  cases hfp : findProduct db item.productId with
  | none =>
    rw [processOrderItem_missing db orderId item hfp]
    exact ⟨hp, rfl, rfl⟩
  | some q =>
    by_cases hq : isPreparedProductRoute q db.categories = true
    · rw [processOrderItem_exempt db orderId item q hfp hq]
      exact ⟨hp, rfl, rfl⟩
    · have hqf : isPreparedProductRoute q db.categories = false := by
        simpa using hq
      rw [processOrderItem_nonexempt db orderId item q hfp hqf]
      by_cases hpid : item.productId = pid
      · exfalso
        rw [hpid, hp] at hfp
        have hpq : p = q := Option.some.inj hfp
        rw [← hpq, hex] at hqf
        exact (by simp at hqf)
      · have hne : pid ≠ item.productId := fun hcontra => hpid hcontra.symm
        refine ⟨?_, ?_, rfl⟩
        · show List.find? (fun q2 => q2.id == pid)
            (db.products.map fun q2 =>
              if q2.id == item.productId then
                { q2 with stock := max 0 (q.stock - item.quantity) } else q2)
            = some p
          rw [find_stockmap_ne db.products pid item.productId
            (max 0 (q.stock - item.quantity)) hne]
          exact hp
        · exact filter_logs_append_ne db.stockLogs _ pid
            (beq_eq_false_iff_ne.mpr hpid)

/-- Helper: the whole creation item loop never touches the stock or the
ledger entries of a prepared/exempt product. -/
theorem foldl_process_spares (items : List ItemReq) (db : DB) (orderId : String)
    (pid : String) (p : Product)
    (hp : findProduct db pid = some p)
    (hex : isPreparedProductRoute p db.categories = true) :
    findProduct (items.foldl (fun acc it => processOrderItem acc orderId it) db) pid
      = some p ∧
    (items.foldl (fun acc it => processOrderItem acc orderId it) db).stockLogs.filter
        (fun l => l.productId == pid)
      = db.stockLogs.filter (fun l => l.productId == pid) ∧
    (items.foldl (fun acc it => processOrderItem acc orderId it) db).categories
      = db.categories := by
  induction items generalizing db with
  | nil => exact ⟨hp, rfl, rfl⟩
  | cons it its ih =>
    simp only [List.foldl_cons]
    obtain ⟨h1, h2, h3⟩ := processOrderItem_spares db orderId it pid p hp hex
    have hex2 : isPreparedProductRoute p (processOrderItem db orderId it).categories
        = true := by rw [h3]; exact hex
    obtain ⟨g1, g2, g3⟩ := ih (processOrderItem db orderId it) h1 hex2
    exact ⟨g1, g2.trans h2, g3.trans h3⟩

/-- Helper: the cancellation restore step never touches the stock or the
ledger entries of a product exempt under the supplied prepared-category
id set. -/
theorem restoreOrderItem_spares (db : DB) (preparedCatIds : List String)
    (orderId : String) (item : OrderItem) (pid : String) (p : Product)
    (hp : findProduct db pid = some p)
    (hex : (p.isPrepared || preparedCatIds.contains p.categoryId) = true) :
    findProduct (restoreOrderItem db preparedCatIds orderId item) pid = some p ∧
    (restoreOrderItem db preparedCatIds orderId item).stockLogs.filter
        (fun l => l.productId == pid)
      = db.stockLogs.filter (fun l => l.productId == pid) ∧
    (restoreOrderItem db preparedCatIds orderId item).categories = db.categories := by
  cases hfp : findProduct db item.productId with
  | none =>
    rw [restoreOrderItem_missing db preparedCatIds orderId item hfp]
    exact ⟨hp, rfl, rfl⟩
  | some q =>
    by_cases hq : (q.isPrepared || preparedCatIds.contains q.categoryId) = true
    · rw [restoreOrderItem_exempt db preparedCatIds orderId item q hfp hq]
      exact ⟨hp, rfl, rfl⟩
    · have hqf : (q.isPrepared || preparedCatIds.contains q.categoryId) = false := by
        simpa using hq
      rw [restoreOrderItem_nonexempt db preparedCatIds orderId item q hfp hqf]
      by_cases hpid : item.productId = pid
      · exfalso
        rw [hpid, hp] at hfp
        have hpq : p = q := Option.some.inj hfp
        rw [← hpq, hex] at hqf
        exact (by simp at hqf)
      · have hne : pid ≠ item.productId := fun hcontra => hpid hcontra.symm
        refine ⟨?_, ?_, rfl⟩
        · show List.find? (fun q2 => q2.id == pid)
            (db.products.map fun q2 =>
              if q2.id == item.productId then
                { q2 with stock := q.stock + item.quantity } else q2)
            = some p
          rw [find_stockmap_ne db.products pid item.productId
            (q.stock + item.quantity) hne]
          exact hp
        · exact filter_logs_append_ne db.stockLogs _ pid
            (beq_eq_false_iff_ne.mpr hpid)

/-- Helper: the whole cancellation restore loop never touches the stock
or the ledger entries of an exempt product. -/
theorem foldl_restore_spares (items : List OrderItem) (db : DB)
    (preparedCatIds : List String) (orderId : String) (pid : String) (p : Product)
    (hp : findProduct db pid = some p)
    (hex : (p.isPrepared || preparedCatIds.contains p.categoryId) = true) :
    findProduct
        (items.foldl (fun acc it => restoreOrderItem acc preparedCatIds orderId it) db)
        pid = some p ∧
    (items.foldl (fun acc it => restoreOrderItem acc preparedCatIds orderId it)
        db).stockLogs.filter (fun l => l.productId == pid)
      = db.stockLogs.filter (fun l => l.productId == pid) := by
  induction items generalizing db with
  | nil => exact ⟨hp, rfl⟩
  | cons it its ih =>
    simp only [List.foldl_cons]
    obtain ⟨h1, h2, _⟩ := restoreOrderItem_spares db preparedCatIds orderId it pid p
      hp hex
    obtain ⟨g1, g2⟩ := ih (restoreOrderItem db preparedCatIds orderId it) h1
    exact ⟨g1, g2.trans h2⟩

/-- C2 amended: the order-creation and order-cancellation stock side
effects treat a product as stock-exempt exactly when `isPrepared` is
true or the id of the product's category is in the route-computed
five-name prepared set (lowercased category name containing one of
doses, caipirinhas, batidas, drinks especiais, copao); exempt products
keep their stock and produce no ledger entry in either flow, while a
non-exempt product is deducted (with clamping) and logged by the
creation step. -/
theorem stockExemption_route_rule
    (db : DB) (body : OrderReqBody) (newId : String) (now : Nat)
    (orderId : String) (pid : String) (p : Product)
    (hp : findProduct db pid = some p) :
    (isPreparedProductRoute p db.categories = true →
      (findProduct (postOrders db body newId now).db pid = some p ∧
       (postOrders db body newId now).db.stockLogs.filter (fun l => l.productId == pid)
         = db.stockLogs.filter (fun l => l.productId == pid)) ∧
      (findProduct (patchOrderStatus db orderId "cancelled" now).db pid = some p ∧
       (patchOrderStatus db orderId "cancelled" now).db.stockLogs.filter
           (fun l => l.productId == pid)
         = db.stockLogs.filter (fun l => l.productId == pid))) ∧
    (isPreparedProductRoute p db.categories = false →
      ∀ item : ItemReq, item.productId = pid →
        processOrderItem db orderId item
          = { db with
              orderItems := db.orderItems ++
                [⟨orderId, pid, item.productName, item.quantity,
                  item.unitPrice, item.totalPrice⟩]
              products := db.products.map fun q =>
                if q.id == pid then
                  { q with stock := max 0 (p.stock - item.quantity) } else q
              stockLogs := db.stockLogs ++
                [⟨pid, p.stock, max 0 (p.stock - item.quantity),
                  -item.quantity, "Pedido #" ++ takeStr orderId 8⟩] }) := by
  constructor
  · intro hex
    constructor
    · by_cases hguard : (!(body.orderType == some "counter")
          && !truthyStr body.userId) = true
      · have hres : (postOrders db body newId now).db = db := by
          simp only [postOrders, hguard, if_true]
        rw [hres]; exact ⟨hp, rfl⟩
      · have hguard2 : (!(body.orderType == some "counter")
            && !truthyStr body.userId) = false := by simpa using hguard
        cases hitems : body.items with
        | none =>
          have hres : (postOrders db body newId now).db
              = { db with orders := db.orders ++ [createOrder body newId now] } := by
            simp [postOrders, hguard2, hitems]
          rw [hres]; exact ⟨hp, rfl⟩
        | some items =>
          have hres : (postOrders db body newId now).db
              = items.foldl
                  (fun acc it => processOrderItem acc (createOrder body newId now).id it)
                  { db with orders := db.orders ++ [createOrder body newId now] } := by
            simp [postOrders, hguard2, hitems]
          rw [hres]
          have hp1 : findProduct
              { db with orders := db.orders ++ [createOrder body newId now] } pid
              = some p := hp
          have hex1 : isPreparedProductRoute p
              ({ db with orders := db.orders ++ [createOrder body newId now] }).categories
              = true := hex
          obtain ⟨g1, g2, _⟩ := foldl_process_spares items
            { db with orders := db.orders ++ [createOrder body newId now] }
            (createOrder body newId now).id pid p hp1 hex1
          exact ⟨g1, g2⟩
    · cases hord : findOrder db orderId with
      | none =>
        have hres : (patchOrderStatus db orderId "cancelled" now).db = db := by
          simp [patchOrderStatus, hord]
        rw [hres]; exact ⟨hp, rfl⟩
      | some order =>
        by_cases hv : (isValidStatusTransition order.status "cancelled"
            (some order.orderType)).valid = true
        · have hres : (patchOrderStatus db orderId "cancelled" now).db
              = updateOrder (restoreStockForOrder db orderId) orderId
                  (applyStatusTimestamp { order with status := "cancelled" }
                    "cancelled" now) := by
            simp [patchOrderStatus, hord, hv]
          rw [hres]
          have hexr : (p.isPrepared
              || (preparedCategoryIds db.categories).contains p.categoryId) = true := hex
          obtain ⟨g1, g2⟩ := foldl_restore_spares (getOrderItems db orderId) db
            (preparedCategoryIds db.categories) orderId pid p hp hexr
          exact ⟨g1, g2⟩
        · have hv2 : (isValidStatusTransition order.status "cancelled"
              (some order.orderType)).valid = false := by simpa using hv
          have hres : (patchOrderStatus db orderId "cancelled" now).db = db := by
            simp [patchOrderStatus, hord, hv2]
          rw [hres]; exact ⟨hp, rfl⟩
  · intro hex item hitem
    have hp2 : findProduct db item.productId = some p := by rw [hitem]; exact hp
    have h := processOrderItem_nonexempt db orderId item p hp2 hex
    rw [h, hitem]

/-- Database fixture for the exemption witness: a category whose
lowercased name contains doses, holding a non-isPrepared product, plus a
pending order referencing it. -/
def dbExempt : DB :=
  { categories := [⟨"c9", "DOSES ESPECIAIS"⟩]
    products := [⟨"p9", "c9", "Dose de Cachaca", 7, false, true⟩]
    orders := [{ baseOrder with id := "o9" }]
    orderItems := [⟨"o9", "p9", "Dose", 3, 5, 15⟩]
    stockLogs := [], prepIngredients := [] }

/-- Order body fixture for the exemption witness. -/
def bodyExempt : OrderReqBody :=
  { userId := some "u1", orderType := some "delivery", status := none,
    addressId := none, subtotal := 15, deliveryFee := 5, deliveryDistance := none,
    discount := none, total := 20, paymentMethod := "cash", changeFor := none,
    notes := none, customerName := none, salesperson := none,
    items := some [⟨"p9", "Dose", 3, 5, 15⟩] }

/-- Witness for C2: the doses-category product is exempt, so both
creating an order that contains it and cancelling the stored order
leave its stock at 7 and write no ledger entry for it. -/
theorem stockExemption_route_rule_witness :
    findProduct (postOrders dbExempt bodyExempt "onew" 3).db "p9"
      = some ⟨"p9", "c9", "Dose de Cachaca", 7, false, true⟩ ∧
    (postOrders dbExempt bodyExempt "onew" 3).db.stockLogs.filter
        (fun l => l.productId == "p9")
      = dbExempt.stockLogs.filter (fun l => l.productId == "p9") ∧
    findProduct (patchOrderStatus dbExempt "o9" "cancelled" 3).db "p9"
      = some ⟨"p9", "c9", "Dose de Cachaca", 7, false, true⟩ := by
  have h := (stockExemption_route_rule dbExempt bodyExempt "onew" 3 "o9" "p9"
    ⟨"p9", "c9", "Dose de Cachaca", 7, false, true⟩ rfl).1 (by decide)
  exact ⟨h.1.1, h.1.2, h.2.1⟩

/-- Counterexample to C2 as stated: COPOS is one of the eight
prepared-category names of the shared helper, yet an order for a
non-isPrepared product of a category literally named COPOS deducts its
stock from 10 to 8 and writes a stock ledger entry, because the routes
consult only the five-name list with one-direction containment. -/
theorem stockExemption_eight_names_counterexample :
    isPreparedCategoryName "COPOS" = true ∧
    (postOrders
        { categories := [⟨"c1", "COPOS"⟩]
          products := [⟨"p1", "c1", "Copo Grande", 10, false, true⟩]
          orders := [], orderItems := [], stockLogs := [], prepIngredients := [] }
        { userId := some "u1", orderType := some "delivery", status := none,
          addressId := none, subtotal := 10, deliveryFee := 5,
          deliveryDistance := none, discount := none, total := 15,
          paymentMethod := "cash", changeFor := none, notes := none,
          customerName := none, salesperson := none,
          items := some [⟨"p1", "Copo Grande", 2, 5, 10⟩] }
        "ord1" 0).db.products.map Product.stock = [8] ∧
    (postOrders
        { categories := [⟨"c1", "COPOS"⟩]
          products := [⟨"p1", "c1", "Copo Grande", 10, false, true⟩]
          orders := [], orderItems := [], stockLogs := [], prepIngredients := [] }
        { userId := some "u1", orderType := some "delivery", status := none,
          addressId := none, subtotal := 10, deliveryFee := 5,
          deliveryDistance := none, discount := none, total := 15,
          paymentMethod := "cash", changeFor := none, notes := none,
          customerName := none, salesperson := none,
          items := some [⟨"p1", "Copo Grande", 2, 5, 10⟩] }
        "ord1" 0).db.stockLogs.length = 1 := by
  refine ⟨by decide, by decide, by decide⟩

/-- Database fixture for the stock-ledger claims: one non-exempt
product with three units on hand. -/
def dbClamp : DB :=
  { categories := [⟨"c1", "CERVEJAS"⟩]
    products := [⟨"p1", "c1", "Skol", 3, false, true⟩]
    orders := [], orderItems := [], stockLogs := [], prepIngredients := [] }

/-- Order body fixture requesting five units of the three-unit
product. -/
def bodyClamp : OrderReqBody :=
  { userId := some "u1", orderType := some "delivery", status := none,
    addressId := none, subtotal := 10, deliveryFee := 0, deliveryDistance := none,
    discount := none, total := 10, paymentMethod := "cash", changeFor := none,
    notes := none, customerName := none, salesperson := none,
    items := some [⟨"p1", "Skol", 5, 2, 10⟩] }

/-- Counterexample to C3 as stated: ordering five units with three on
hand clamps the stock at zero but logs change -5, the requested delta,
while the delta actually applied is 0 - 3 = -3; the ledger does not
record the applied delta. -/
theorem stockLog_requested_delta_counterexample :
    (postOrders dbClamp bodyClamp "ord12345678" 0).db.stockLogs
      = [⟨"p1", 3, 0, -5, "Pedido #ord12345"⟩] ∧
    ((-5 : Int) ≠ 0 - 3) := by
  refine ⟨by decide, by decide⟩

/-- C3 amended: every stock-affecting order-flow operation (creation
deduction, ingredient deduction, cancellation restore) writes the new
stock and appends one ledger entry holding previousStock, newStock, the
requested signed delta (not the applied one, which differs under
clamping) and the reason; deductions clamp at zero with
`max 0 (stock - qty)`, and the restore adds the quantity back, which
equals `max 0 (stock + qty)` whenever stock and quantity are
nonnegative. -/
theorem stockLedger_clamp_and_requested_delta :
    (∀ (db : DB) (orderId : String) (item : ItemReq) (p : Product),
      findProduct db item.productId = some p →
      isPreparedProductRoute p db.categories = false →
      processOrderItem db orderId item
        = { db with
            orderItems := db.orderItems ++
              [⟨orderId, item.productId, item.productName, item.quantity,
                item.unitPrice, item.totalPrice⟩]
            products := db.products.map fun q =>
              if q.id == item.productId then
                { q with stock := max 0 (p.stock - item.quantity) } else q
            stockLogs := db.stockLogs ++
              [⟨item.productId, p.stock, max 0 (p.stock - item.quantity),
                -item.quantity, "Pedido #" ++ takeStr orderId 8⟩] }) ∧
    (∀ (db : DB) (orderId itemId pid : String) (qty : Int) (sdd : Option Bool)
        (p : Product),
      findProduct db pid = some p →
      ¬ sdd = some false → ¬ pid = "" → ¬ qty = 0 →
      postIngredients db orderId itemId (some pid) (some qty) sdd
        = ⟨IngredResp.ok ⟨itemId, pid, qty⟩,
            { db with
              prepIngredients := db.prepIngredients ++ [⟨itemId, pid, qty⟩]
              products := db.products.map fun q =>
                if q.id == pid then { q with stock := max 0 (p.stock - qty) } else q
              stockLogs := db.stockLogs ++
                [⟨pid, p.stock, max 0 (p.stock - qty), -qty,
                  "Ingredient used in order " ++ orderId⟩] }⟩) ∧
    (∀ (db : DB) (preparedCatIds : List String) (orderId : String)
        (item : OrderItem) (p : Product),
      findProduct db item.productId = some p →
      (p.isPrepared || preparedCatIds.contains p.categoryId) = false →
      restoreOrderItem db preparedCatIds orderId item
        = { db with
            products := db.products.map fun q =>
              if q.id == item.productId then
                { q with stock := p.stock + item.quantity } else q
            stockLogs := db.stockLogs ++
              [⟨item.productId, p.stock, p.stock + item.quantity, item.quantity,
                "Cancelamento pedido #" ++ takeStr orderId 8⟩] } ∧
      (0 ≤ p.stock → 0 ≤ item.quantity →
        p.stock + item.quantity = max 0 (p.stock + item.quantity))) := by
  refine ⟨?_, ?_, ?_⟩
  · intro db orderId item p hp hex
    exact processOrderItem_nonexempt db orderId item p hp hex
  · intro db orderId itemId pid qty sdd p hp hsdd hpid hqty
    have hg : (pid == "" || qty == 0) = false := by
      simp [beq_eq_false_iff_ne.mpr hpid, beq_eq_false_iff_ne.mpr hqty]
    have hsb : (sdd == some false) = false := beq_eq_false_iff_ne.mpr hsdd
    have hp2 : findProduct
        { db with prepIngredients := db.prepIngredients ++ [⟨itemId, pid, qty⟩] } pid
        = some p := hp
    simp [postIngredients, hg, hsb, hp2, updateProductStock, addStockLog]
  · intro db preparedCatIds orderId item p hp hex
    refine ⟨restoreOrderItem_nonexempt db preparedCatIds orderId item p hp hex, ?_⟩
    intro h1 h2
    exact (max_eq_right (by omega)).symm

/-- Witness for C3 on the concrete clamp fixture: the item step deducts
to the clamped stock and logs the requested -5. -/
theorem stockLedger_clamp_and_requested_delta_witness :
    processOrderItem dbClamp "ord12345678" ⟨"p1", "Skol", 5, 2, 10⟩
      = { dbClamp with
          orderItems := dbClamp.orderItems ++ [⟨"ord12345678", "p1", "Skol", 5, 2, 10⟩]
          products := dbClamp.products.map fun q =>
            if q.id == "p1" then { q with stock := max 0 ((3 : Int) - 5) } else q
          stockLogs := dbClamp.stockLogs ++
            [⟨"p1", 3, max 0 ((3 : Int) - 5), -5,
              "Pedido #" ++ takeStr "ord12345678" 8⟩] } :=
  stockLedger_clamp_and_requested_delta.1 dbClamp "ord12345678"
    ⟨"p1", "Skol", 5, 2, 10⟩ ⟨"p1", "c1", "Skol", 3, false, true⟩ rfl (by decide)

/-- Database fixture for the round-trip claim, parameterized by the
initial stock. -/
def dbRound (S : Int) : DB :=
  { categories := [⟨"c1", "CERVEJAS"⟩]
    products := [⟨"p1", "c1", "Skol", S, false, true⟩]
    orders := [], orderItems := [], stockLogs := [], prepIngredients := [] }

/-- Order body fixture for the round-trip claim, parameterized by the
ordered quantity. -/
def bodyRound (N : Int) : OrderReqBody :=
  { userId := some "u", orderType := some "delivery", status := none,
    addressId := none, subtotal := 0, deliveryFee := 0, deliveryDistance := none,
    discount := none, total := 0, paymentMethod := "cash", changeFor := none,
    notes := none, customerName := none, salesperson := none,
    items := some [⟨"p1", "Skol", N, 0, 0⟩] }

/-- C7: creating an order for N units of a non-exempt product holding S
units leaves its stock at max 0 (S - N); cancelling that same order
afterwards leaves it at max 0 (S - N) + N. -/
theorem stock_roundtrip_create_cancel (S N : Int) :
    (postOrders (dbRound S) (bodyRound N) "ord1" 0).db.products.map Product.stock
      = [max 0 (S - N)] ∧
    (patchOrderStatus (postOrders (dbRound S) (bodyRound N) "ord1" 0).db
        "ord1" "cancelled" 1).db.products.map Product.stock
      = [max 0 (S - N) + N] := by
  exact ⟨rfl, rfl⟩

/-- Counterexample to C5 as stated: a fully successful courier
assignment publishes only the assignment event; no status-changed event
is broadcast, although the claim requires both. -/
theorem assignCourier_no_status_event_counterexample :
    (patchOrderAssign (dbWithOrder { baseOrder with status := "ready" })
        "o1" (some "m2") 6).resp
      = AssignResp.ok { { baseOrder with status := "ready" } with
          motoboyId := some "m2", status := "dispatched",
          dispatchedAt := some 6 } ∧
    (patchOrderAssign (dbWithOrder { baseOrder with status := "ready" })
        "o1" (some "m2") 6).events = ["order_assigned"] ∧
    "order_status_changed"
        ∉ (patchOrderAssign (dbWithOrder { baseOrder with status := "ready" })
            "o1" (some "m2") 6).events := by
  refine ⟨by decide, by decide, by decide⟩

